import Mathlib

/-!
Verification of the TREN Turkish–English code-switching annotation pipeline
(`cs_pipeline.py`).

Shallow embedding conventions:
* token and suffix strings are lists of characters (`Str`);
* labels and feature tags are Lean `String`s, as they are `str` atoms in the
  source;
* Python `float` configuration values are modelled as rationals (`ℚ`);
* Python `set`s of feature tags are modelled as lists — the pipeline only ever
  queries their truthiness (non-emptiness), never order or multiplicity;
* the frequency dictionaries, the fastText language identifier and the stanza
  NER model are external collaborators, modelled as components of an `Env`
  record of pure functions.
-/

namespace TREN

/-- Token, suffix and line text is modelled as a list of characters. -/
abbrev Str := List Char

/-- Python `str.lower()`, modelled character-wise. Faithful on ASCII and on
the Turkish letters appearing in the pipeline's tables; characters whose
Python lowercase is not a single code point (such as U+0130) are outside the
modelled alphabet and are left unchanged. -/
def pyLowerChar (c : Char) : Char :=
  if 'A' ≤ c ∧ c ≤ 'Z' then Char.ofNat (c.toNat + 32)
  else if c = 'Ç' then 'ç'
  else if c = 'Ğ' then 'ğ'
  else if c = 'Ö' then 'ö'
  else if c = 'Ş' then 'ş'
  else if c = 'Ü' then 'ü'
  else c

/-- Python `str.lower()` on a whole string. -/
def pyLower (s : Str) : Str := s.map pyLowerChar

/-- Python `s.endswith(e)`: the last `e.length` characters of `s` equal `e`. -/
def endsWith (s e : Str) : Bool := s.drop (s.length - e.length) == e

/-- Python `s[:-len(e)]` for a matched (non-empty) ending `e`. -/
def stripEnd (s e : Str) : Str := s.take (s.length - e.length)

/-- Python `s[-len(e):]`, the matched tail slice itself. -/
def tailEnd (s e : Str) : Str := s.drop (s.length - e.length)

/-! Suffix tables of `cs_pipeline.py` (lines 35-102).  Each table is written
in key-length-descending order, mirroring the source's
`sorted(..., key=lambda x: -len(x[0]))`: Python's sort is stable, but since
two distinct keys of equal length can never both be an ending of the same
string, only the length-descending property is behaviourally relevant.
Multi-tag values (`POSS_*`, `DERIV_SUFFIXES`) are tuples in the source; all
values are normalised here to lists of tags. -/

/-- Dictionary `BUFFER_N_ACC` merged with `BUFFER_N_DAT` (the source merges
them with `{**BUFFER_N_ACC, **BUFFER_N_DAT}` before sorting). -/
def BUFFER_N : List (Str × List String) :=
  [("nı".data, ["Case=Acc"]), ("ni".data, ["Case=Acc"]),
   ("nu".data, ["Case=Acc"]), ("nü".data, ["Case=Acc"]),
   ("na".data, ["Case=Dat"]), ("ne".data, ["Case=Dat"])]

/-- Dictionary `CASE_ENDINGS`, sorted by key length descending. -/
def CASE_ENDINGS : List (Str × List String) :=
  [("ndan".data, ["Case=Abl"]), ("nden".data, ["Case=Abl"]),
   ("dan".data, ["Case=Abl"]), ("den".data, ["Case=Abl"]),
   ("tan".data, ["Case=Abl"]), ("ten".data, ["Case=Abl"]),
   ("nda".data, ["Case=Loc"]), ("nde".data, ["Case=Loc"]),
   ("nın".data, ["Case=Gen"]), ("nin".data, ["Case=Gen"]),
   ("nun".data, ["Case=Gen"]), ("nün".data, ["Case=Gen"]),
   ("yla".data, ["Case=Ins"]), ("yle".data, ["Case=Ins"]),
   ("da".data, ["Case=Loc"]), ("de".data, ["Case=Loc"]),
   ("ta".data, ["Case=Loc"]), ("te".data, ["Case=Loc"]),
   ("ın".data, ["Case=Gen"]), ("in".data, ["Case=Gen"]),
   ("un".data, ["Case=Gen"]), ("ün".data, ["Case=Gen"]),
   ("la".data, ["Case=Ins"]), ("le".data, ["Case=Ins"]),
   ("ca".data, ["Case=Equ"]), ("ce".data, ["Case=Equ"]),
   ("yı".data, ["Case=Acc"]), ("yi".data, ["Case=Acc"]),
   ("yu".data, ["Case=Acc"]), ("yü".data, ["Case=Acc"]),
   ("ya".data, ["Case=Dat"]), ("ye".data, ["Case=Dat"]),
   ("ı".data, ["Case=Acc"]), ("i".data, ["Case=Acc"]),
   ("u".data, ["Case=Acc"]), ("ü".data, ["Case=Acc"]),
   ("a".data, ["Case=Dat"]), ("e".data, ["Case=Dat"])]

/-- Dictionary `POSS_LONG` (all keys have length 4). -/
def POSS_LONG : List (Str × List String) :=
  [("ımız".data, ["Poss=Yes", "Person[psor]=1", "Number[psor]=Plur"]),
   ("imiz".data, ["Poss=Yes", "Person[psor]=1", "Number[psor]=Plur"]),
   ("umuz".data, ["Poss=Yes", "Person[psor]=1", "Number[psor]=Plur"]),
   ("ümüz".data, ["Poss=Yes", "Person[psor]=1", "Number[psor]=Plur"]),
   ("ınız".data, ["Poss=Yes", "Person[psor]=2", "Number[psor]=Plur"]),
   ("iniz".data, ["Poss=Yes", "Person[psor]=2", "Number[psor]=Plur"]),
   ("unuz".data, ["Poss=Yes", "Person[psor]=2", "Number[psor]=Plur"]),
   ("ünüz".data, ["Poss=Yes", "Person[psor]=2", "Number[psor]=Plur"]),
   ("ları".data, ["Poss=Yes", "Person[psor]=3", "Number[psor]=Plur"]),
   ("leri".data, ["Poss=Yes", "Person[psor]=3", "Number[psor]=Plur"])]

/-- Dictionary `POSS_SHORT`, sorted by key length descending. -/
def POSS_SHORT : List (Str × List String) :=
  [("ım".data, ["Poss=Yes", "Person[psor]=1", "Number[psor]=Sing"]),
   ("im".data, ["Poss=Yes", "Person[psor]=1", "Number[psor]=Sing"]),
   ("um".data, ["Poss=Yes", "Person[psor]=1", "Number[psor]=Sing"]),
   ("üm".data, ["Poss=Yes", "Person[psor]=1", "Number[psor]=Sing"]),
   ("ın".data, ["Poss=Yes", "Person[psor]=2", "Number[psor]=Sing"]),
   ("in".data, ["Poss=Yes", "Person[psor]=2", "Number[psor]=Sing"]),
   ("un".data, ["Poss=Yes", "Person[psor]=2", "Number[psor]=Sing"]),
   ("ün".data, ["Poss=Yes", "Person[psor]=2", "Number[psor]=Sing"]),
   ("sı".data, ["Poss=Yes", "Person[psor]=3", "Number[psor]=Sing"]),
   ("si".data, ["Poss=Yes", "Person[psor]=3", "Number[psor]=Sing"]),
   ("su".data, ["Poss=Yes", "Person[psor]=3", "Number[psor]=Sing"]),
   ("sü".data, ["Poss=Yes", "Person[psor]=3", "Number[psor]=Sing"]),
   ("m".data, ["Poss=Yes", "Person[psor]=1", "Number[psor]=Sing"]),
   ("n".data, ["Poss=Yes", "Person[psor]=2", "Number[psor]=Sing"])]

/-- Dictionary `PLUR`. -/
def PLUR : List (Str × List String) :=
  [("lar".data, ["Number=Plur"]), ("ler".data, ["Number=Plur"])]

/-- Dictionary `DERIV_SUFFIXES`, sorted by key length descending; each value
is the derivation tag paired with the derived part-of-speech tag. -/
def DERIV_SUFFIXES : List (Str × List String) :=
  [("lık".data, ["Deriv=LIK", "DerivPOS=NOUN"]),
   ("lik".data, ["Deriv=LIK", "DerivPOS=NOUN"]),
   ("luk".data, ["Deriv=LIK", "DerivPOS=NOUN"]),
   ("lük".data, ["Deriv=LIK", "DerivPOS=NOUN"]),
   ("sal".data, ["Deriv=SAL", "DerivPOS=ADJ"]),
   ("sel".data, ["Deriv=SAL", "DerivPOS=ADJ"]),
   ("siz".data, ["Deriv=SIZ", "DerivPOS=ADJ"]),
   ("suz".data, ["Deriv=SIZ", "DerivPOS=ADJ"]),
   ("süz".data, ["Deriv=SIZ", "DerivPOS=ADJ"]),
   ("sız".data, ["Deriv=SIZ", "DerivPOS=ADJ"]),
   ("li".data, ["Deriv=LI", "DerivPOS=ADJ"]),
   ("lı".data, ["Deriv=LI", "DerivPOS=ADJ"]),
   ("lu".data, ["Deriv=LI", "DerivPOS=ADJ"]),
   ("lü".data, ["Deriv=LI", "DerivPOS=ADJ"]),
   ("ci".data, ["Deriv=CI", "DerivPOS=NOUN"]),
   ("cı".data, ["Deriv=CI", "DerivPOS=NOUN"]),
   ("cu".data, ["Deriv=CI", "DerivPOS=NOUN"]),
   ("cü".data, ["Deriv=CI", "DerivPOS=NOUN"]),
   ("çı".data, ["Deriv=CI", "DerivPOS=NOUN"]),
   ("çi".data, ["Deriv=CI", "DerivPOS=NOUN"]),
   ("çu".data, ["Deriv=CI", "DerivPOS=NOUN"]),
   ("çü".data, ["Deriv=CI", "DerivPOS=NOUN"])]

/-- Bare-vowel fallback list of the possessive pass, `["ı", "i", "u", "ü"]`
(line 183 of the source). -/
def BARE_VOWELS : List Str := ["ı".data, "i".data, "u".data, "ü".data]

/-- First table entry whose key the string ends with (tables are ordered
longest key first, so this is the source's longest-match scan). -/
def findEnding (tbl : List (Str × List String)) (s : Str) :
    Option (Str × List String) :=
  tbl.find? (fun p => endsWith s p.1)

/-- Case/buffer pass of `_parse_tr_suffixes_full` (source lines 161-171): a
greedy loop that first tries the merged buffer-n table, then the case-ending
table, stripping the matched tail slice each time.  The loop is modelled with
fuel; every table key is non-empty, so fuel `s.length + 1` behaves exactly
like the source's unbounded `while progressed and s`. -/
def casePass : Nat → Str → List Str → List String → Str × List Str × List String
  | 0, s, segs, ud => (s, segs, ud)
  | fuel + 1, s, segs, ud =>
    if s = [] then (s, segs, ud)
    else
      match findEnding BUFFER_N s with
      | some (e, fs) => casePass fuel (stripEnd s e) (segs ++ [tailEnd s e]) (ud ++ fs)
      | none =>
        match findEnding CASE_ENDINGS s with
        | some (e, fs) => casePass fuel (stripEnd s e) (segs ++ [tailEnd s e]) (ud ++ fs)
        | none => (s, segs, ud)

/-- Possessive pass of `_parse_tr_suffixes_full` (source lines 172-185): long
possessives, then short possessives, then the bare-vowel ambiguity fallback
which records `Amb=P3sg_or_Acc` — note that a bare-vowel strip also continues
the loop, exactly as in the source. -/
def possPass : Nat → Str → List Str → List String → List String →
    Str × List Str × List String × List String
  | 0, s, segs, ud, amb => (s, segs, ud, amb)
  | fuel + 1, s, segs, ud, amb =>
    if s = [] then (s, segs, ud, amb)
    else
      match findEnding POSS_LONG s with
      | some (e, fs) => possPass fuel (stripEnd s e) (segs ++ [tailEnd s e]) (ud ++ fs) amb
      | none =>
        match findEnding POSS_SHORT s with
        | some (e, fs) => possPass fuel (stripEnd s e) (segs ++ [tailEnd s e]) (ud ++ fs) amb
        | none =>
          match BARE_VOWELS.find? (fun e => endsWith s e) with
          | some e => possPass fuel (stripEnd s e) (segs ++ [e]) ud (amb ++ ["Amb=P3sg_or_Acc"])
          | none => (s, segs, ud, amb)

/-- Plural pass of `_parse_tr_suffixes_full` (source lines 186-188): a single
check of the two plural endings, at most one strip, appending the table key
itself as the segment (the source appends `end` here, not the tail slice). -/
def plurPass (s : Str) (segs : List Str) (ud : List String) :
    Str × List Str × List String :=
  match findEnding PLUR s with
  | some (e, fs) => (stripEnd s e, segs ++ [e], ud ++ fs)
  | none => (s, segs, ud)

/-- Derivational pass of `_parse_tr_suffixes_full` (source lines 189-194): a
greedy loop over the derivational table, appending the table key itself as
the segment. -/
def derivPass : Nat → Str → List Str → List String → Str × List Str × List String
  | 0, s, segs, dv => (s, segs, dv)
  | fuel + 1, s, segs, dv =>
    if s = [] then (s, segs, dv)
    else
      match findEnding DERIV_SUFFIXES s with
      | some (e, fs) => derivPass fuel (stripEnd s e) (segs ++ [e]) (dv ++ fs)
      | none => (s, segs, dv)

/-- Body of `_parse_tr_suffixes_full` after the initial `s = suffix.lower()`
(source lines 159-198): the four stripping passes, the leftover segment, and
the final reversal into surface order.  Returns
`(segments, ud, deriv, amb)`. -/
def parseTrSuffixesCore (s0 : Str) :
    List Str × List String × List String × List String :=
  let r1 := casePass (s0.length + 1) s0 [] []
  let r2 := possPass (r1.1.length + 1) r1.1 r1.2.1 r1.2.2 []
  let r3 := plurPass r2.1 r2.2.1 r2.2.2.1
  let r4 := derivPass (r3.1.length + 1) r3.1 r3.2.1 []
  if r4.1 = [] then ((r4.2.1).reverse, r3.2.2, r4.2.2, r2.2.2.2)
  else ((r4.2.1 ++ [r4.1]).reverse, r3.2.2, r4.2.2 ++ ["Unparsed=Leftover"], r2.2.2.2)

/-- Method `_parse_tr_suffixes_full` (source lines 157-198): lowercases the
suffix, then runs the stripping passes. -/
def parseTrSuffixesFull (suffix : Str) :
    List Str × List String × List String × List String :=
  parseTrSuffixesCore (pyLower suffix)

/-! Round-trip invariant of the stripping passes: at any point, the remaining
string followed by the already-stripped segments (in surface order) is the
original input. -/

theorem take_drop_assoc (s : Str) (n : Nat) (t : Str) :
    s.take n ++ (s.drop n ++ t) = s ++ t := by
  rw [← List.append_assoc, List.take_append_drop]

theorem endsWith_tailEnd {s e : Str} (h : endsWith s e = true) : tailEnd s e = e := by
  simpa [endsWith, tailEnd] using h

theorem findEnding_endsWith {tbl : List (Str × List String)} {s e : Str}
    {fs : List String} (h : findEnding tbl s = some (e, fs)) :
    endsWith s e = true := by
  simpa using List.find?_some h

theorem strip_seg_assoc {s e : Str} (h : endsWith s e = true) (t : List Char) :
    stripEnd s e ++ (e ++ t) = s ++ t := by
  have he : s.drop (s.length - e.length) = e := endsWith_tailEnd h
  calc stripEnd s e ++ (e ++ t)
      = s.take (s.length - e.length) ++ (s.drop (s.length - e.length) ++ t) := by rw [he]; rfl
    _ = s ++ t := take_drop_assoc ..

theorem casePass_flatten (fuel : Nat) :
    ∀ (s : Str) (segs : List Str) (ud : List String),
      (casePass fuel s segs ud).1 ++ ((casePass fuel s segs ud).2.1).reverse.flatten
        = s ++ segs.reverse.flatten := by
  induction fuel with
  | zero => intro s segs ud; rfl
  | succ fuel ih =>
    intro s segs ud
    unfold casePass
    split
    · rfl
    · split
      · rw [ih]
        simp only [List.reverse_append, List.reverse_singleton, List.singleton_append,
          List.flatten_cons, stripEnd, tailEnd]
        exact take_drop_assoc ..
      · split
        · rw [ih]
          simp only [List.reverse_append, List.reverse_singleton, List.singleton_append,
            List.flatten_cons, stripEnd, tailEnd]
          exact take_drop_assoc ..
        · rfl

theorem possPass_flatten (fuel : Nat) :
    ∀ (s : Str) (segs : List Str) (ud amb : List String),
      (possPass fuel s segs ud amb).1 ++ ((possPass fuel s segs ud amb).2.1).reverse.flatten
        = s ++ segs.reverse.flatten := by
  induction fuel with
  | zero => intro s segs ud amb; rfl
  | succ fuel ih =>
    intro s segs ud amb
    unfold possPass
    split
    · rfl
    · split
      · rw [ih]
        simp only [List.reverse_append, List.reverse_singleton, List.singleton_append,
          List.flatten_cons, stripEnd, tailEnd]
        exact take_drop_assoc ..
      · split
        · rw [ih]
          simp only [List.reverse_append, List.reverse_singleton, List.singleton_append,
            List.flatten_cons, stripEnd, tailEnd]
          exact take_drop_assoc ..
        · split
          · next e hfind =>
            have he : endsWith s e = true := by simpa using List.find?_some hfind
            rw [ih]
            simp only [List.reverse_append, List.reverse_singleton, List.singleton_append,
              List.flatten_cons]
            exact strip_seg_assoc he _
          · rfl

theorem plurPass_flatten (s : Str) (segs : List Str) (ud : List String) :
    (plurPass s segs ud).1 ++ ((plurPass s segs ud).2.1).reverse.flatten
      = s ++ segs.reverse.flatten := by
  unfold plurPass
  split
  · next e fs hfind =>
    have he : endsWith s e = true := findEnding_endsWith hfind
    simp only [List.reverse_append, List.reverse_singleton, List.singleton_append,
      List.flatten_cons]
    exact strip_seg_assoc he _
  · rfl

theorem derivPass_flatten (fuel : Nat) :
    ∀ (s : Str) (segs : List Str) (dv : List String),
      (derivPass fuel s segs dv).1 ++ ((derivPass fuel s segs dv).2.1).reverse.flatten
        = s ++ segs.reverse.flatten := by
  induction fuel with
  | zero => intro s segs dv; rfl
  | succ fuel ih =>
    intro s segs dv
    unfold derivPass
    split
    · rfl
    · split
      · next e fs hfind =>
        have he : endsWith s e = true := findEnding_endsWith hfind
        rw [ih]
        simp only [List.reverse_append, List.reverse_singleton, List.singleton_append,
          List.flatten_cons]
        exact strip_seg_assoc he _
      · rfl

theorem parseTrSuffixesCore_flatten (s0 : Str) :
    (parseTrSuffixesCore s0).1.flatten = s0 := by
  unfold parseTrSuffixesCore
  dsimp only
  set r1 := casePass (s0.length + 1) s0 [] [] with hr1
  set r2 := possPass (r1.1.length + 1) r1.1 r1.2.1 r1.2.2 [] with hr2
  set r3 := plurPass r2.1 r2.2.1 r2.2.2.1 with hr3
  set r4 := derivPass (r3.1.length + 1) r3.1 r3.2.1 [] with hr4
  have h1 : r1.1 ++ r1.2.1.reverse.flatten = s0 := by
    rw [hr1]
    simpa using casePass_flatten (s0.length + 1) s0 [] []
  have h2 : r2.1 ++ r2.2.1.reverse.flatten = s0 := by
    rw [hr2, possPass_flatten]
    exact h1
  have h3 : r3.1 ++ r3.2.1.reverse.flatten = s0 := by
    rw [hr3, plurPass_flatten]
    exact h2
  have h4 : r4.1 ++ r4.2.1.reverse.flatten = s0 := by
    rw [hr4, derivPass_flatten]
    exact h3
  split
  · next hempty =>
    rw [hempty] at h4
    simpa using h4
  · simpa [List.reverse_append] using h4

/-- C1 (amended): for every suffix string `s`, the segments returned by
`_parse_tr_suffixes_full`, concatenated in the returned left-to-right surface
order, reconstruct the lowercased form of `s` exactly — the parser first
lowercases its input (`s = suffix.lower()`), after which no characters are
created, dropped, or altered.  For an `s` that lowercasing leaves unchanged
this is `s` itself. -/
theorem parse_segments_reconstruct_lower (suffix : Str) :
    (parseTrSuffixesFull suffix).1.flatten = pyLower suffix :=
  parseTrSuffixesCore_flatten _

/-- C1 counterexample: for the suffix `"Yi"` the returned segments concatenate
to `"yi"`, not to the input `"Yi"` — the claim's round-trip fails on any
suffix containing an uppercase letter, because the parser lowercases first. -/
theorem parse_segments_Yi_not_identity :
    ¬ ((parseTrSuffixesFull "Yi".data).1.flatten = "Yi".data) := by decide

/-! Configuration and environment records. -/

/-- Configuration dictionary of the pipeline; the keys and default values are
the `DEFAULTS` dict of `cs_pipeline.py` (lines 10-24).  Python floats are
modelled as rationals. -/
structure Config where
  FEATURE_LANGUAGE_PER_ITEM : Bool
  FEATURE_MATRIX_LANGUAGE : Bool
  FEATURE_EMBEDDED_LANGUAGE : Bool
  FEATURE_SENTENCE_ID : Bool
  NER_ENABLED : Bool
  FT_EN_MIN : ℚ
  FT_TR_MIN : ℚ
  MIXED_STRICT : Bool
  EMIT_MIXED_SUFFIX : Bool
  MIXED_TR_WEIGHT : ℚ
  MIXED_EN_WEIGHT : ℚ
  EMBED_MIN_COUNT : ℕ
  EMBED_MIN_RATIO : ℚ

/-- Default configuration values (`DEFAULTS`, source lines 10-24);
0.8 = 4/5, 0.6 = 3/5, 0.4 = 2/5, 0.2 = 1/5. -/
def DEFAULTS : Config where
  FEATURE_LANGUAGE_PER_ITEM := true
  FEATURE_MATRIX_LANGUAGE := true
  FEATURE_EMBEDDED_LANGUAGE := true
  FEATURE_SENTENCE_ID := true
  NER_ENABLED := true
  FT_EN_MIN := 4/5
  FT_TR_MIN := 4/5
  MIXED_STRICT := true
  EMIT_MIXED_SUFFIX := false
  MIXED_TR_WEIGHT := 3/5
  MIXED_EN_WEIGHT := 2/5
  EMBED_MIN_COUNT := 1
  EMBED_MIN_RATIO := 1/5

/-- External collaborators and loaded dictionary state of an `Annotator`
instance: the three frequency word sets (membership predicates over
lowercased words), the fastText language identifier `_ft_predict` (pure, per
source, returning an uppercased language tag and a confidence), and the NER
model reduced to the texts of the entity spans it finds in a line
(`doc.ents[i].text`). -/
structure Env where
  turkish_freq_top : Str → Bool
  turkish_freq_all : Str → Bool
  english_freq_words : Str → Bool
  ft_predict : Str → String × ℚ
  ner_ents : Str → List Str

/-- Count of one label value in a sentence's label list
(`sum(1 for lb in labels if lb == x)`). -/
def countLabel (labels : List String) (x : String) : ℕ :=
  (labels.filter (fun lb => lb == x)).length

/-- Method `_decide_matrix_embed` (source lines 261-287): weighted matrix
vote with ties favouring TR, then the embed decision. -/
def decideMatrixEmbed (labels : List String) (cfg : Config) : String × String :=
  let score_tr : ℚ := (countLabel labels "TR" : ℚ) +
    cfg.MIXED_TR_WEIGHT * (countLabel labels "MIXED" : ℚ)
  let score_en : ℚ := (countLabel labels "EN" : ℚ) +
    cfg.MIXED_EN_WEIGHT * (countLabel labels "MIXED" : ℚ)
  let matrix := if score_en ≤ score_tr then "TR" else "EN"
  let embed :=
    if matrix = "TR" then
      if labels.any (fun lb => lb == "EN" || lb == "MIXED") then "EN" else "-"
    else
      if labels.any (fun lb => lb == "TR" || lb == "MIXED") then "TR" else "-"
  (matrix, embed)

/-- C2: the Matrix component is TR exactly when
`count(TR) + MIXED_TR_WEIGHT·count(MIXED) ≥ count(EN) + MIXED_EN_WEIGHT·count(MIXED)`
and EN otherwise — the TR comparison is `≥`, so an exact tie of the two
scores yields TR — and on the spec's scenario `[TR, TR, MIXED]` under the
default weights 0.6/0.4 the scores are 2.6 = 13/5 and 0.4 = 2/5 and the
Matrix is TR. -/
theorem matrix_vote_scores :
    (∀ (labels : List String) (cfg : Config),
      ((decideMatrixEmbed labels cfg).1 = "TR" ↔
        (countLabel labels "EN" : ℚ) + cfg.MIXED_EN_WEIGHT * (countLabel labels "MIXED" : ℚ)
          ≤ (countLabel labels "TR" : ℚ) + cfg.MIXED_TR_WEIGHT * (countLabel labels "MIXED" : ℚ)) ∧
      ((decideMatrixEmbed labels cfg).1 = "EN" ↔
        ¬ ((countLabel labels "EN" : ℚ) + cfg.MIXED_EN_WEIGHT * (countLabel labels "MIXED" : ℚ)
          ≤ (countLabel labels "TR" : ℚ) + cfg.MIXED_TR_WEIGHT * (countLabel labels "MIXED" : ℚ)))) ∧
    (countLabel ["TR", "TR", "MIXED"] "TR" : ℚ) +
        DEFAULTS.MIXED_TR_WEIGHT * (countLabel ["TR", "TR", "MIXED"] "MIXED" : ℚ) = 13/5 ∧
    (countLabel ["TR", "TR", "MIXED"] "EN" : ℚ) +
        DEFAULTS.MIXED_EN_WEIGHT * (countLabel ["TR", "TR", "MIXED"] "MIXED" : ℚ) = 2/5 ∧
    (decideMatrixEmbed ["TR", "TR", "MIXED"] DEFAULTS).1 = "TR" := by
  refine ⟨fun labels cfg => ?_, ?_, ?_, ?_⟩
  · unfold decideMatrixEmbed
    dsimp only
    constructor
    · split
      · next h => simp [h]
      · next h => simp [h]
    · split
      · next h => simp [h]
      · next h => simp [h]
  · show (2 : ℚ) + 3/5 * 1 = 13/5
    norm_num
  · show (0 : ℚ) + 2/5 * 1 = 2/5
    norm_num
  · unfold decideMatrixEmbed
    dsimp only
    rw [if_pos (by show (0 : ℚ) + 2/5 * 1 ≤ 2 + 3/5 * 1; norm_num)]

/-- Opposite of a matrix language label. -/
def oppositeOf (m : String) : String := if m = "TR" then "EN" else "TR"

/-- C3: the Embed component is `"-"` exactly when the label list contains no
label of the language opposite to the chosen Matrix and no MIXED label;
otherwise it is the opposite language of the Matrix; and it is always one of
TR, EN, `"-"`. -/
theorem embed_dash_iff_monolingual (labels : List String) (cfg : Config) :
    ((decideMatrixEmbed labels cfg).2 = "-" ↔
      labels.any (fun lb =>
        lb == oppositeOf (decideMatrixEmbed labels cfg).1 || lb == "MIXED") = false) ∧
    ((decideMatrixEmbed labels cfg).2 = "-" ∨
      (decideMatrixEmbed labels cfg).2 = oppositeOf (decideMatrixEmbed labels cfg).1) ∧
    ((decideMatrixEmbed labels cfg).2 = "TR" ∨ (decideMatrixEmbed labels cfg).2 = "EN" ∨
      (decideMatrixEmbed labels cfg).2 = "-") := by
  unfold decideMatrixEmbed
  dsimp only
  split
  · next h =>
    rw [if_pos rfl, oppositeOf, if_pos rfl]
    split
    · next hany =>
      rw [hany]
      refine ⟨by decide, Or.inr rfl, Or.inr (Or.inl rfl)⟩
    · next hany =>
      rw [Bool.not_eq_true] at hany
      rw [hany]
      exact ⟨by decide, Or.inl rfl, Or.inr (Or.inr rfl)⟩
  · next h =>
    have hne : ¬ (("EN" : String) = "TR") := by decide
    rw [if_neg hne, oppositeOf, if_neg hne]
    split
    · next hany =>
      rw [hany]
      refine ⟨by decide, Or.inr rfl, Or.inl rfl⟩
    · next hany =>
      rw [Bool.not_eq_true] at hany
      rw [hany]
      exact ⟨by decide, Or.inl rfl, Or.inr (Or.inr rfl)⟩

theorem countLabel_filter_keep (q : String → Bool) (x : String) (hx : q x = true)
    (labels : List String) :
    countLabel (labels.filter q) x = countLabel labels x := by
  induction labels with
  | nil => rfl
  | cons a l ih =>
    cases hqa : q a
    · have hax : (a == x) = false := by
        cases h2 : a == x
        · rfl
        · have ha : a = x := by simpa using h2
          rw [ha, hx] at hqa
          cases hqa
      simp only [countLabel, List.filter_cons, hqa, Bool.false_eq_true, if_false, hax] at *
      exact ih
    · simp only [countLabel, List.filter_cons, hqa, if_true] at *
      cases hax : a == x
      · simpa only [List.filter_cons, hax, Bool.false_eq_true, if_false] using ih
      · simpa only [List.filter_cons, hax, if_true, List.length_cons] using
          congrArg Nat.succ ih

theorem any_filter_subsumed (q p : String → Bool)
    (hp : ∀ lb, p lb = true → q lb = true) (l : List String) :
    (l.filter q).any p = l.any p := by
  induction l with
  | nil => rfl
  | cons a l ih =>
    cases hqa : q a
    · have hpa : p a = false := by
        cases hpa : p a
        · rfl
        · rw [hp a hpa] at hqa
          cases hqa
      simp [List.filter_cons, hqa, List.any_cons, hpa, ih]
    · simp [List.filter_cons, hqa, List.any_cons, ih]

/-- C8: NE, OTHER, and UID labels contribute to neither score and do not
affect the embed check — deleting all of them from the label list leaves the
result of `_decide_matrix_embed` unchanged. -/
theorem matrix_embed_ignores_ne_other_uid (labels : List String) (cfg : Config) :
    decideMatrixEmbed
        (labels.filter (fun lb => !(lb == "NE" || lb == "OTHER" || lb == "UID"))) cfg
      = decideMatrixEmbed labels cfg := by
  unfold decideMatrixEmbed
  dsimp only
  rw [countLabel_filter_keep _ "TR" (by decide) labels,
    countLabel_filter_keep _ "EN" (by decide) labels,
    countLabel_filter_keep _ "MIXED" (by decide) labels,
    any_filter_subsumed _ (fun lb => lb == "EN" || lb == "MIXED")
      (by
        intro lb h
        rcases (by simpa using h : lb = "EN" ∨ lb = "MIXED") with h1 | h1 <;>
          subst h1 <;> decide) labels,
    any_filter_subsumed _ (fun lb => lb == "TR" || lb == "MIXED")
      (by
        intro lb h
        rcases (by simpa using h : lb = "TR" ∨ lb = "MIXED") with h1 | h1 <;>
          subst h1 <;> decide) labels]

/-! The language chooser `_choose_label` (source lines 145-155). -/

/-- Method `_choose_label` (source lines 145-155): tiered dictionary lookup
with a thresholded language-identifier fallback. -/
def chooseLabel (env : Env) (token_l : Str) (cfg : Config) : String :=
  if env.turkish_freq_top token_l then "TR"
  else if env.english_freq_words token_l then "EN"
  else if env.turkish_freq_all token_l then "TR"
  else
    let r := env.ft_predict token_l
    if r.1 = "EN" ∧ cfg.FT_EN_MIN ≤ r.2 then "EN"
    else if r.1 = "TR" ∧ cfg.FT_TR_MIN ≤ r.2 then "TR"
    else "UID"

/-- Modelled from the spec's words (section 4.3 `chooseLanguage`), for the
refinement claim C4: 1. Turkish top-1000 set → TR; 2. English set → EN;
3. full Turkish set → TR; 4. identifier prediction EN with confidence at
least `FT_EN_MIN` → EN, TR with confidence at least `FT_TR_MIN` → TR;
5. otherwise UID. -/
def chooseLanguageSpec (env : Env) (token_l : Str) (cfg : Config) : String :=
  if env.turkish_freq_top token_l then "TR"
  else if env.english_freq_words token_l then "EN"
  else if env.turkish_freq_all token_l then "TR"
  else if (env.ft_predict token_l).1 = "EN" ∧ cfg.FT_EN_MIN ≤ (env.ft_predict token_l).2 then
    "EN"
  else if (env.ft_predict token_l).1 = "TR" ∧ cfg.FT_TR_MIN ≤ (env.ft_predict token_l).2 then
    "TR"
  else "UID"

/-- C4: `_choose_label` decides in exactly the spec's priority order — it
coincides with the chooser written step for step from the spec's words
(first match wins: Turkish top-1000, English set, full Turkish set,
identifier EN at threshold, identifier TR at threshold, UID). -/
theorem choose_label_follows_spec_order (env : Env) (token_l : Str) (cfg : Config) :
    chooseLabel env token_l cfg = chooseLanguageSpec env token_l cfg := rfl

/-- Every value `_choose_label` returns is TR, EN or UID. -/
theorem chooseLabel_range (env : Env) (token_l : Str) (cfg : Config) :
    chooseLabel env token_l cfg = "TR" ∨ chooseLabel env token_l cfg = "EN" ∨
      chooseLabel env token_l cfg = "UID" := by
  unfold chooseLabel
  split
  · exact Or.inl rfl
  · split
    · exact Or.inr (Or.inl rfl)
    · split
      · exact Or.inl rfl
      · dsimp only
        split
        · exact Or.inr (Or.inl rfl)
        · split
          · exact Or.inl rfl
          · exact Or.inr (Or.inr rfl)

/-! The apostrophe splitter `_split_mixed_apostrophe` (source lines 200-209). -/

/-- ASCII apostrophe U+0027, written via its code point so that the source
file itself contains no bare quote characters. -/
def apos : Char := Char.ofNat 39

/-- Unicode right single quotation mark U+2019. -/
def rsquo : Char := Char.ofNat 0x2019

/-- Character class of the source regex `[’']`. -/
def isApos (c : Char) : Bool := c = apos || c = rsquo

/-- Set `EN_CONTRACTIONS` (source line 33). -/
def EN_CONTRACTIONS : List Str :=
  ["s".data, "re".data, "ve".data, "m".data, "ll".data, "d".data, "t".data]

/-- String constant `"n't"` of the contraction check (source line 206). -/
def NT_SUFFIX : Str := ['n', apos, 't']

/-- Python `re.split(r"[’']", token)`: split at every apostrophe-like
character; always returns at least one (possibly empty) part. -/
def splitApos : Str → List Str
  | [] => [[]]
  | c :: rest =>
    match splitApos rest with
    | [] => [[]]
    | g :: gs => if isApos c then [] :: g :: gs else (c :: g) :: gs

/-- Method `_split_mixed_apostrophe` (source lines 200-209): splits the token
at apostrophes; exactly two non-empty parts are required, and a lowercased
suffix that is an English contraction (or ends in `n't`) is rejected.
`None, None` is modelled as `none`; the returned parts are always
non-empty. -/
def splitMixedApostrophe (token : Str) : Option (Str × Str) :=
  if token.any isApos then
    match splitApos token with
    | [base, suff] =>
      if base ≠ [] ∧ suff ≠ [] then
        if pyLower suff ∈ EN_CONTRACTIONS ∨ endsWith (pyLower suff) NT_SUFFIX = true then none
        else some (base, suff)
      else none
    | _ => none
  else none

theorem splitApos_of_no_apos (tok : Str) (h : tok.any isApos = false) :
    splitApos tok = [tok] := by
  induction tok with
  | nil => rfl
  | cons c rest ih =>
    rw [List.any_cons, Bool.or_eq_false_iff] at h
    unfold splitApos
    rw [ih h.2, h.1]
    rfl

/-- C9: for every token that splits at an apostrophe into exactly two
non-empty parts, if the lowercased right part is one of the English
contractions `s, re, ve, m, ll, d, t`, or ends with `n't`, then
`_split_mixed_apostrophe` yields no (base, suffix) pair — such a token can
never be labeled MIXED via the apostrophe path, which requires that pair. -/
theorem split_apostrophe_excludes_contractions (tok base suff : Str)
    (hsplit : splitApos tok = [base, suff]) (hb : base ≠ []) (hs : suff ≠ [])
    (hc : pyLower suff ∈ EN_CONTRACTIONS ∨ endsWith (pyLower suff) NT_SUFFIX = true) :
    splitMixedApostrophe tok = none := by
  have hapos : tok.any isApos = true := by
    cases h : tok.any isApos
    · rw [splitApos_of_no_apos tok h] at hsplit
      simp at hsplit
    · rfl
  unfold splitMixedApostrophe
  rw [hapos, hsplit]
  simp only [if_true]
  rw [if_pos ⟨hb, hs⟩, if_pos hc]

/-- Witness for C9 at the token `can't`: the split is `("can", "t")`, both
parts non-empty, `"t"` is a contraction, and the splitter returns none. -/
theorem split_apostrophe_excludes_contractions_witness :
    splitApos ("can".data ++ apos :: "t".data) = ["can".data, "t".data] ∧
    "can".data ≠ ([] : Str) ∧ "t".data ≠ ([] : Str) ∧
    (pyLower "t".data ∈ EN_CONTRACTIONS ∨ endsWith (pyLower "t".data) NT_SUFFIX = true) ∧
    splitMixedApostrophe ("can".data ++ apos :: "t".data) = none :=
  ⟨by decide, by decide, by decide, Or.inl (by decide),
    split_apostrophe_excludes_contractions ("can".data ++ apos :: "t".data)
      "can".data "t".data (by decide) (by decide) (by decide) (Or.inl (by decide))⟩

/-! Token-level predicates: `is_other_token`, `clean_token`, `tokenize`
(source lines 27-31, 104-116).  The regexes are modelled directly; the Python
Unicode classes are scoped to the alphabet the pipeline works over. -/

/-- Python regex `\w` (Unicode word character), scoped to the modelled
alphabet: ASCII alphanumerics, underscore, and the Turkish letters. -/
def isWordChar (c : Char) : Bool :=
  c.isAlphanum || c = '_' || c ∈ "çğıöşüÇĞİÖŞÜ".data

/-- Function `clean_token` (source lines 112-113),
`re.sub(r"[^\w’']+", "", token)`: keep only word characters and
apostrophes. -/
def cleanToken (token : Str) : Str :=
  token.filter (fun c => isWordChar c || isApos c)

/-- Python `\S` (non-whitespace). -/
def isNonSpace (c : Char) : Bool := !c.isWhitespace

/-- Regex `URL_RE = (https?://\S+|www\.\S+)` anchored at the start
(`re.match`), case-insensitive: one of the three literal prefixes followed by
at least one non-space character. -/
def matchUrlRe (t : Str) : Bool :=
  let l := pyLower t
  (l.take 7 == "http://".data && isNonSpace ((l.drop 7).headD ' ')) ||
  (l.take 8 == "https://".data && isNonSpace ((l.drop 8).headD ' ')) ||
  (l.take 4 == "www.".data && isNonSpace ((l.drop 4).headD ' '))

/-- Regex `MENTION_RE = @\w+` anchored at the start. -/
def matchMentionRe (t : Str) : Bool :=
  match t with
  | '@' :: c :: _ => isWordChar c
  | _ => false

/-- Regex `HASHTAG_RE = #\w+` anchored at the start. -/
def matchHashtagRe (t : Str) : Bool :=
  match t with
  | '#' :: c :: _ => isWordChar c
  | _ => false

/-- Separator class of `NUMERIC_RE`: dot, comma, colon, slash, hyphen. -/
def isNumSep (c : Char) : Bool :=
  c = '.' || c = ',' || c = ':' || c = '/' || c = '-'

/-- Tail of `NUMERIC_RE` after the leading digit run: zero or more groups of
one separator followed by one or more digits, to the end of the string. -/
def numericRest : Nat → Str → Bool
  | _, [] => true
  | 0, _ => false
  | fuel + 1, c :: rest =>
    if isNumSep c then
      match rest with
      | d :: _ => if d.isDigit then numericRest fuel (rest.dropWhile Char.isDigit) else false
      | [] => false
    else false

/-- Regex `NUMERIC_RE`: one or more digits, then zero or more groups of one separator and one or more digits, anchored at both ends (digits scoped to ASCII). -/
def matchNumericRe (t : Str) : Bool :=
  match t with
  | c :: _ => c.isDigit && numericRest t.length (t.dropWhile Char.isDigit)
  | [] => false

/-- Regex `EMOJI_RE = [\U00010000-\U0010ffff]` used with `re.search`: the
token contains a code point at or above U+10000. -/
def containsEmoji (t : Str) : Bool := t.any (fun c => 0x10000 ≤ c.toNat)

/-- Function `is_other_token` (source lines 104-110). -/
def isOtherToken (tok : Str) : Bool :=
  if tok = [] then true
  else if matchUrlRe tok || matchMentionRe tok || matchHashtagRe tok then true
  else if matchNumericRe tok then true
  else if containsEmoji tok then true
  else if tok.all (fun c => !isWordChar c || c = '_') then true
  else false

/-- Scanner for `re.findall(r"\w+['’]?\w*|\w+|['’]", text)` (`tokenize`,
source lines 115-116): a maximal word-character run optionally followed by
one apostrophe and another word run, or a lone apostrophe (emitted only when
`keepApos` is true — the named-entity piece scan on line 250 uses the same
pattern without the lone-apostrophe alternative). -/
def findallWords (keepApos : Bool) : Nat → Str → List Str
  | 0, _ => []
  | _, [] => []
  | fuel + 1, c :: rest =>
    if isWordChar c then
      let w1 := (c :: rest).takeWhile isWordChar
      let r1 := (c :: rest).dropWhile isWordChar
      match r1 with
      | a :: r2 =>
        if isApos a then
          (w1 ++ a :: r2.takeWhile isWordChar) ::
            findallWords keepApos fuel (r2.dropWhile isWordChar)
        else w1 :: findallWords keepApos fuel r1
      | [] => [w1]
    else if isApos c then
      if keepApos then [c] :: findallWords keepApos fuel rest
      else findallWords keepApos fuel rest
    else findallWords keepApos fuel rest

/-- Function `tokenize` (source lines 115-116). -/
def tokenize (text : Str) : List Str := findallWords true text.length text

/-- Word pieces of a named-entity span text,
`re.findall(r"\w+['’]?\w*|\w+", ent.text)` (source line 250). -/
def entPieces (text : Str) : List Str := findallWords false text.length text

/-- Method `_build_ne_map` (source lines 245-255) reduced to the set of line
tokens that occur among the entity-text word pieces; the source maps each
such token to the constant `"NE"`, so the map is its key set. -/
def buildNeMap (ents : List Str) (lineTokens : List Str) : List Str :=
  let nePieces := (ents.map entPieces).flatten
  lineTokens.filter (fun tok => tok ∈ nePieces)

/-! The no-apostrophe mixed-token detector `_detect_mixed_no_apostrophe`
(source lines 211-243). -/

/-- Union `all_suffixes` of every table key (source lines 216-218), iterated
longest-first (`sorted(all_suffixes, key=len, reverse=True)`).  Two distinct
keys of equal length cannot both be an ending of the same token, so only the
length-descending order is behaviourally relevant; set deduplication is also
immaterial (a duplicate candidate repeats an identical check). -/
def ALL_SUFFIXES : List Str :=
  let keys := (BUFFER_N ++ CASE_ENDINGS ++ POSS_LONG ++ POSS_SHORT ++ PLUR ++
    DERIV_SUFFIXES).map Prod.fst
  keys.filter (fun k => k.length = 4) ++ keys.filter (fun k => k.length = 3) ++
    keys.filter (fun k => k.length = 2) ++ keys.filter (fun k => k.length = 1)

/-- Turkish vowels of the buffer-consonant check (source line 234),
`"aeıioöuü"`. -/
def TR_VOWELS : Str := "aeıioöuü".data

/-- Truthiness of the parsed feature sets,
`has_ud = bool(ud_feats or deriv or amb)` (source line 238). -/
def hasFeats (r : List Str × List String × List String × List String) : Bool :=
  !(r.2.1.isEmpty && r.2.2.1.isEmpty && r.2.2.2.isEmpty)

/-- Candidate-suffix scan of `_detect_mixed_no_apostrophe` (source lines
219-243): for each table suffix (longest first, length at least 2) that the
lowercased token ends with, check that the base is long enough and English,
apply the buffer-consonant constraint, require a non-empty parsed feature
set, and apply the strict-mode Turkish-homograph rejection; the first
surviving candidate returns `(base, token[-len(suf):])`. -/
def detectScan (env : Env) (cfg : Config) (tok tok_l : Str) : List Str → Option (Str × Str)
  | [] => none
  | suf :: rest =>
    if suf.length < 2 then detectScan env cfg tok tok_l rest
    else if endsWith tok_l suf then
      let base := stripEnd tok suf
      let base_clean := pyLower (cleanToken base)
      if base_clean.length < 2 then detectScan env cfg tok tok_l rest
      else
        let base_is_en :=
          env.english_freq_words base_clean ||
            ((env.ft_predict base_clean).1 == "EN" &&
              decide (cfg.FT_EN_MIN ≤ (env.ft_predict base_clean).2))
        if !base_is_en then detectScan env cfg tok tok_l rest
        else
          let last_is_vowel := base_clean.getLastD ' ' ∈ TR_VOWELS
          if (suf.headD ' ' = 'y' ∨ suf.headD ' ' = 'n') ∧ ¬ last_is_vowel then
            detectScan env cfg tok tok_l rest
          else if ¬ (hasFeats (parseTrSuffixesFull suf) = true) then
            detectScan env cfg tok tok_l rest
          else if cfg.MIXED_STRICT ∧ env.turkish_freq_all base_clean = true then
            detectScan env cfg tok tok_l rest
          else some (base, tailEnd tok suf)
    else detectScan env cfg tok tok_l rest

/-- Method `_detect_mixed_no_apostrophe` (source lines 211-243): tokens whose
lowercase form is a known Turkish word are never mixed; otherwise scan the
suffix table. -/
def detectMixedNoApostrophe (env : Env) (cfg : Config) (token : Str) : Option (Str × Str) :=
  let tok_l := pyLower token
  if env.turkish_freq_all tok_l then none
  else detectScan env cfg token tok_l ALL_SUFFIXES

/-! The per-token body of the classification loop in `annotate`
(source lines 320-381). -/

/-- A tab-separated output row, Python `f"{tok}\t{label}"`. -/
def row (tok : Str) (label : String) : Str := tok ++ '\t' :: label.data

/-- One iteration of the token loop of `annotate` (source lines 320-381),
returning the rows appended to `sent_rows` and the labels appended to
`labels_in_sent` for this token.  The source checks `if base and suf:` on the
splitter's result and `if base2 and suf2:` on the detector's result; both
methods only ever return pairs of non-empty strings (or none), so these are
the `some` checks. -/
def annotateToken (env : Env) (cfg : Config) (neMap : List Str) (tok : Str) :
    List Str × List String :=
  if isOtherToken tok then
    (if cfg.FEATURE_LANGUAGE_PER_ITEM then [row tok "OTHER"] else [], [])
  else if tok ∈ neMap then
    if cfg.FEATURE_LANGUAGE_PER_ITEM then ([row tok "NE"], ["NE"]) else ([], [])
  else if ¬ (cfg.FEATURE_LANGUAGE_PER_ITEM = true) then
    let label := chooseLabel env (pyLower (cleanToken tok)) cfg
    let afterApos :=
      if label ≠ "TR" ∧ (detectMixedNoApostrophe env cfg tok).isSome = true then ([], ["MIXED"])
      else if label = "TR" ∨ label = "EN" then ([], [label])
      else (([] : List Str), ([] : List String))
    match splitMixedApostrophe tok with
    | some (base, suff) =>
      if chooseLabel env (pyLower (cleanToken base)) cfg = "EN" ∧
          hasFeats (parseTrSuffixesFull suff) = true then ([], ["MIXED"])
      else afterApos
    | none => afterApos
  else
    let label := chooseLabel env (pyLower (cleanToken tok)) cfg
    let afterApos :=
      if label ≠ "TR" ∧ (detectMixedNoApostrophe env cfg tok).isSome = true then
        ([row tok "MIXED"], ["MIXED"])
      else ([row tok label],
        if label = "TR" ∨ label = "EN" ∨ label = "MIXED" then [label] else [])
    match splitMixedApostrophe tok with
    | some (base, suff) =>
      let base_label := chooseLabel env (pyLower (cleanToken base)) cfg
      if base_label = "EN" ∧ hasFeats (parseTrSuffixesFull suff) = true then
        ([row tok "MIXED"], ["MIXED"])
      else if base_label = "TR" then ([row tok "TR"], ["TR"])
      else afterApos
    | none => afterApos

theorem splitMixedApostrophe_eq_some (tok base suff : Str)
    (hsplit : splitApos tok = [base, suff]) (hb : base ≠ []) (hs : suff ≠ [])
    (hcontr : ¬ (pyLower suff ∈ EN_CONTRACTIONS ∨ endsWith (pyLower suff) NT_SUFFIX = true)) :
    splitMixedApostrophe tok = some (base, suff) := by
  have hapos : tok.any isApos = true := by
    cases h : tok.any isApos
    · rw [splitApos_of_no_apos tok h] at hsplit
      simp at hsplit
    · rfl
  unfold splitMixedApostrophe
  rw [hapos, hsplit]
  simp only [if_true]
  rw [if_pos ⟨hb, hs⟩, if_neg hcontr]

/-- C5 (amended): for every non-OTHER, non-NE token that an apostrophe-like
delimiter splits into exactly two non-empty parts, where the lowercased right
part is moreover not an English contraction (not one of `s, re, ve, m, ll, d,
t` and not ending in `n't`): if the left part's chosen language is EN and the
right part parses to a non-empty FeatureSet, the classifier returns MIXED;
if the left part's chosen language is TR, the classifier returns TR. -/
theorem apostrophe_path_mixed_and_tr (env : Env) (cfg : Config) (neMap : List Str)
    (tok base suff : Str)
    (hother : isOtherToken tok = false) (hne : tok ∉ neMap)
    (hitem : cfg.FEATURE_LANGUAGE_PER_ITEM = true)
    (hsplit : splitApos tok = [base, suff]) (hb : base ≠ []) (hs : suff ≠ [])
    (hcontr : ¬ (pyLower suff ∈ EN_CONTRACTIONS ∨ endsWith (pyLower suff) NT_SUFFIX = true)) :
    (chooseLabel env (pyLower (cleanToken base)) cfg = "EN" ∧
        hasFeats (parseTrSuffixesFull suff) = true →
      annotateToken env cfg neMap tok = ([row tok "MIXED"], ["MIXED"])) ∧
    (chooseLabel env (pyLower (cleanToken base)) cfg = "TR" →
      annotateToken env cfg neMap tok = ([row tok "TR"], ["TR"])) := by
  have hsome := splitMixedApostrophe_eq_some tok base suff hsplit hb hs hcontr
  have hred : annotateToken env cfg neMap tok =
      (let base_label := chooseLabel env (pyLower (cleanToken base)) cfg
      if base_label = "EN" ∧ hasFeats (parseTrSuffixesFull suff) = true then
        ([row tok "MIXED"], ["MIXED"])
      else if base_label = "TR" then ([row tok "TR"], ["TR"])
      else
        let label := chooseLabel env (pyLower (cleanToken tok)) cfg
        if label ≠ "TR" ∧ (detectMixedNoApostrophe env cfg tok).isSome = true then
          ([row tok "MIXED"], ["MIXED"])
        else ([row tok label],
          if label = "TR" ∨ label = "EN" ∨ label = "MIXED" then [label] else [])) := by
    unfold annotateToken
    rw [if_neg (by simp [hother]), if_neg hne, hitem,
      if_neg (by simp : ¬ ¬ (true = true)), hsome]
  constructor
  · intro hEN
    rw [hred]
    exact if_pos hEN
  · intro hTR
    rw [hred]
    dsimp only
    rw [if_neg (by rw [hTR]; rintro ⟨h1, h2⟩; exact absurd h1 (by decide)), if_pos hTR]

/-- Concrete test configuration: integer-valued thresholds and weights make
every rational comparison kernel-decidable. -/
def testCfg : Config where
  FEATURE_LANGUAGE_PER_ITEM := true
  FEATURE_MATRIX_LANGUAGE := true
  FEATURE_EMBEDDED_LANGUAGE := true
  FEATURE_SENTENCE_ID := true
  NER_ENABLED := false
  FT_EN_MIN := 1
  FT_TR_MIN := 1
  MIXED_STRICT := true
  EMIT_MIXED_SUFFIX := false
  MIXED_TR_WEIGHT := 1
  MIXED_EN_WEIGHT := 0
  EMBED_MIN_COUNT := 1
  EMBED_MIN_RATIO := 0

/-- Test environment whose English dictionary contains exactly `selfie`; the
identifier predicts EN with confidence 0 (below every threshold). -/
def envSelfie : Env where
  turkish_freq_top := fun _ => false
  turkish_freq_all := fun _ => false
  english_freq_words := fun w => w == "selfie".data
  ft_predict := fun _ => ("EN", 0)
  ner_ents := fun _ => []

/-- Witness for C5 (amended) at the spec's scenario token `selfie'yi`:
`selfie` resolves to EN via the English dictionary, the suffix `yi` parses to
`Case=Acc`, and the classifier labels the token MIXED. -/
theorem apostrophe_path_mixed_witness :
    annotateToken envSelfie testCfg [] ("selfie".data ++ apos :: "yi".data)
      = ([row ("selfie".data ++ apos :: "yi".data) "MIXED"], ["MIXED"]) :=
  (apostrophe_path_mixed_and_tr envSelfie testCfg []
    ("selfie".data ++ apos :: "yi".data) "selfie".data "yi".data
    (by decide) (by decide) rfl (by decide) (by decide) (by decide)
    (by decide)).1 ⟨by decide, by decide⟩

/-- Test environment whose English dictionary contains exactly `it` and
`it's`. -/
def envIt : Env where
  turkish_freq_top := fun _ => false
  turkish_freq_all := fun _ => false
  english_freq_words := fun w => w == "it".data || w == ("it".data ++ apos :: "s".data)
  ft_predict := fun _ => ("EN", 0)
  ner_ents := fun _ => []

/-- C5 counterexample at the token `it's`: the token is non-OTHER, non-NE,
splits at the apostrophe into the two non-empty parts `it` and `s`, the left
part's chosen language is EN, and the right part parses to a non-empty
FeatureSet (the unparsed-leftover tag), yet the classifier returns EN, not
MIXED — the contraction suffix `s` is excluded before any language or suffix
check. -/
theorem apostrophe_contraction_not_mixed_cex :
    isOtherToken ("it".data ++ apos :: "s".data) = false ∧
    ("it".data ++ apos :: "s".data) ∉ ([] : List Str) ∧
    testCfg.FEATURE_LANGUAGE_PER_ITEM = true ∧
    splitApos ("it".data ++ apos :: "s".data) = ["it".data, "s".data] ∧
    "it".data ≠ ([] : Str) ∧ "s".data ≠ ([] : Str) ∧
    chooseLabel envIt (pyLower (cleanToken "it".data)) testCfg = "EN" ∧
    hasFeats (parseTrSuffixesFull "s".data) = true ∧
    annotateToken envIt testCfg [] ("it".data ++ apos :: "s".data)
      = ([row ("it".data ++ apos :: "s".data) "EN"], ["EN"]) :=
  ⟨by decide, by decide, rfl, by decide, by decide, by decide, by decide, by decide,
    by decide⟩

/-! Claim C6: accepted no-apostrophe mixed candidates always carry a
non-leftover morphological tag. -/

/-- Non-leftover-tag test on a parse result: at least one
case/possessive/plural tag, ambiguity mark, or derivational tag other than
the unparsed-leftover marker. -/
def hasNonLeftoverTag (r : List Str × List String × List String × List String) : Bool :=
  !r.2.1.isEmpty || !r.2.2.2.isEmpty || r.2.2.1.any (fun t => t != "Unparsed=Leftover")

/-- Every candidate the suffix scan accepts comes from the suffix table, has
length at least 2, is an ending of the lowercased token, and is returned as
the token's tail slice of that length. -/
theorem detectScan_some_mem (env : Env) (cfg : Config) (tok tok_l : Str) :
    ∀ (sufs : List Str) (b sfx : Str), detectScan env cfg tok tok_l sufs = some (b, sfx) →
      ∃ suf, suf ∈ sufs ∧ 2 ≤ suf.length ∧ endsWith tok_l suf = true ∧
        sfx = tailEnd tok suf := by
  intro sufs
  induction sufs with
  | nil =>
    intro b sfx h
    exact absurd h (by simp [detectScan])
  | cons suf rest ih =>
    intro b sfx h
    unfold detectScan at h
    split at h
    · obtain ⟨s, hm, h2⟩ := ih b sfx h
      exact ⟨s, List.mem_cons_of_mem _ hm, h2⟩
    · next hlen =>
      split at h
      · next hends =>
        dsimp only at h
        split at h
        · obtain ⟨s, hm, h2⟩ := ih b sfx h
          exact ⟨s, List.mem_cons_of_mem _ hm, h2⟩
        · split at h
          · obtain ⟨s, hm, h2⟩ := ih b sfx h
            exact ⟨s, List.mem_cons_of_mem _ hm, h2⟩
          · split at h
            · obtain ⟨s, hm, h2⟩ := ih b sfx h
              exact ⟨s, List.mem_cons_of_mem _ hm, h2⟩
            · split at h
              · obtain ⟨s, hm, h2⟩ := ih b sfx h
                exact ⟨s, List.mem_cons_of_mem _ hm, h2⟩
              · split at h
                · obtain ⟨s, hm, h2⟩ := ih b sfx h
                  exact ⟨s, List.mem_cons_of_mem _ hm, h2⟩
                · simp only [Option.some.injEq, Prod.mk.injEq] at h
                  exact ⟨suf, List.mem_cons_self suf rest, by omega, hends, h.2.symm⟩
      · obtain ⟨s, hm, h2⟩ := ih b sfx h
        exact ⟨s, List.mem_cons_of_mem _ hm, h2⟩

/-- Finite check over the whole suffix table: every key of length at least 2
parses (as the already-lowercase string it is) with a non-leftover tag. -/
theorem all_suffixes_non_leftover :
    ALL_SUFFIXES.all (fun suf => decide (suf.length < 2) ||
      hasNonLeftoverTag (parseTrSuffixesCore suf)) = true := by decide

theorem pyLower_tailEnd (tok e : Str) :
    pyLower (tailEnd tok e) = tailEnd (pyLower tok) e := by
  simp [pyLower, tailEnd, List.map_drop]

/-- C6: whenever `_detect_mixed_no_apostrophe` accepts a (stem, suffix)
result, the suffix's parsed FeatureSet contains at least one tag other than
the unparsed-leftover marker — a candidate whose parse would yield only the
leftover tag is never accepted. -/
theorem detect_no_apostrophe_non_leftover (env : Env) (cfg : Config) (token b sfx : Str)
    (h : detectMixedNoApostrophe env cfg token = some (b, sfx)) :
    hasNonLeftoverTag (parseTrSuffixesFull sfx) = true := by
  unfold detectMixedNoApostrophe at h
  dsimp only at h
  split at h
  · cases h
  · obtain ⟨suf, hmem, hlen, hends, hsfx⟩ :=
      detectScan_some_mem env cfg token (pyLower token) ALL_SUFFIXES b sfx h
    have hlow : pyLower sfx = suf := by
      rw [hsfx, pyLower_tailEnd]
      exact endsWith_tailEnd hends
    unfold parseTrSuffixesFull
    rw [hlow]
    have hall := all_suffixes_non_leftover
    rw [List.all_eq_true] at hall
    have h2 := hall suf hmem
    rw [Bool.or_eq_true] at h2
    rcases h2 with h2 | h2
    · rw [decide_eq_true_iff] at h2
      omega
    · exact h2

/-- Test environment whose English dictionary contains exactly `party`. -/
def envParty : Env where
  turkish_freq_top := fun _ => false
  turkish_freq_all := fun _ => false
  english_freq_words := fun w => w == "party".data
  ft_predict := fun _ => ("EN", 0)
  ner_ents := fun _ => []

/-- Witness for C6 at the token `partyler`: the detector accepts the split
`("party", "ler")` and the suffix's FeatureSet carries the non-leftover tag
`Number=Plur`. -/
theorem detect_no_apostrophe_non_leftover_witness :
    detectMixedNoApostrophe envParty testCfg "partyler".data
      = some ("party".data, "ler".data) ∧
    hasNonLeftoverTag (parseTrSuffixesFull "ler".data) = true :=
  ⟨by decide, detect_no_apostrophe_non_leftover envParty testCfg "partyler".data
    "party".data "ler".data (by decide)⟩

/-! Claim C7: OTHER before NE. -/

/-- Every token the `findall` scanner produces consists of word characters
and apostrophes only. -/
theorem findallWords_chars (keepApos : Bool) :
    ∀ (fuel : Nat) (s tok : Str), tok ∈ findallWords keepApos fuel s →
      tok.all (fun c => isWordChar c || isApos c) = true := by
  intro fuel
  induction fuel with
  | zero =>
    intro s tok h
    cases s <;> cases h
  | succ fuel ih =>
    intro s tok h
    cases s with
    | nil => cases h
    | cons c rest =>
      unfold findallWords at h
      split at h
      · next hw =>
        dsimp only at h
        split at h
        · next a r2 hr1 =>
          split at h
          · next ha =>
            rcases List.mem_cons.mp h with rfl | hmem
            · rw [List.all_eq_true]
              intro x hx
              rcases List.mem_append.mp hx with hx1 | hx2
              · simp [List.mem_takeWhile_imp hx1]
              · rcases List.mem_cons.mp hx2 with rfl | hx3
                · simp [ha]
                · simp [List.mem_takeWhile_imp hx3]
            · exact ih _ _ hmem
          · rcases List.mem_cons.mp h with rfl | hmem
            · rw [List.all_eq_true]
              intro x hx
              simp [List.mem_takeWhile_imp hx]
            · exact ih _ _ hmem
        · rcases List.mem_cons.mp h with rfl | hmem
          · rw [List.all_eq_true]
            intro x hx
            simp [List.mem_takeWhile_imp hx]
          · cases hmem
      · split at h
        · split at h
          · rcases List.mem_cons.mp h with rfl | hmem
            · next hc _ =>
              rw [List.all_eq_true]
              intro x hx
              rcases List.mem_cons.mp hx with rfl | hx2
              · simp [hc]
              · cases hx2
            · exact ih _ _ hmem
          · exact ih _ _ h
        · exact ih _ _ h

/-- Tokens of the pipeline's tokenizer are unchanged by `clean_token` (the
cleaner only removes characters that are neither word characters nor
apostrophes, and tokenizer output has no such characters). -/
theorem cleanToken_of_tokenize (line tok : Str) (h : tok ∈ tokenize line) :
    cleanToken tok = tok := by
  have hall := findallWords_chars true line.length line tok h
  rw [List.all_eq_true] at hall
  unfold cleanToken
  exact List.filter_eq_self.mpr hall

/-- The main classification path never produces the NE row/label pair. -/
theorem annotateToken_not_ne (env : Env) (cfg : Config) (neMap : List Str) (tok : Str)
    (hother : isOtherToken tok = false) (hne : tok ∉ neMap)
    (hitem : cfg.FEATURE_LANGUAGE_PER_ITEM = true) :
    ¬ annotateToken env cfg neMap tok = ([row tok "NE"], ["NE"]) := by
  unfold annotateToken
  rw [if_neg (by simp [hother]), if_neg hne, hitem, if_neg (by simp : ¬ ¬ (true = true))]
  dsimp only
  intro heq
  split at heq
  · split at heq
    · simp [Prod.mk.injEq] at heq
    · split at heq
      · simp [Prod.mk.injEq] at heq
      · split at heq
        · simp [Prod.mk.injEq] at heq
        · rw [Prod.mk.injEq] at heq
          obtain ⟨h1, h2⟩ := heq
          split at h2
          · simp only [List.cons.injEq] at h2
            rcases chooseLabel_range env (pyLower (cleanToken tok)) cfg with hl | hl | hl <;>
              rw [hl] at h2 <;> exact absurd h2.1 (by decide)
          · simp at h2
  · split at heq
    · simp [Prod.mk.injEq] at heq
    · rw [Prod.mk.injEq] at heq
      obtain ⟨h1, h2⟩ := heq
      split at h2
      · simp only [List.cons.injEq] at h2
        rcases chooseLabel_range env (pyLower (cleanToken tok)) cfg with hl | hl | hl <;>
          rw [hl] at h2 <;> exact absurd h2.1 (by decide)
      · simp at h2

/-- C7: the classifier applies the non-linguistic predicate first — a token
matching `is_other_token` (empty, URL/mention/hashtag, numeric with
separators, emoji, or all non-word characters) is labeled OTHER regardless of
the named-entity set — and a non-OTHER pipeline token is labeled NE exactly
when its cleaned form (which for tokenizer output is the token itself, in
original casing) is in the sentence's named-entity token set; OTHER takes
precedence over NE. -/
theorem classifier_other_before_ne (env : Env) (cfg : Config) (neMap : List Str)
    (line tok : Str) (htok : tok ∈ tokenize line)
    (hitem : cfg.FEATURE_LANGUAGE_PER_ITEM = true) :
    (isOtherToken tok = true →
      annotateToken env cfg neMap tok = ([row tok "OTHER"], [])) ∧
    (isOtherToken tok = false →
      (annotateToken env cfg neMap tok = ([row tok "NE"], ["NE"]) ↔
        cleanToken tok ∈ neMap)) ∧
    (isOtherToken [] = true ∧ annotateToken env cfg neMap [] = ([row [] "OTHER"], [])) := by
  have hempty : annotateToken env cfg neMap [] = ([row [] "OTHER"], []) := by
    unfold annotateToken
    rw [if_pos (by decide : isOtherToken [] = true), hitem, if_pos rfl]
  refine ⟨?_, ?_, by decide, hempty⟩
  · intro hother
    unfold annotateToken
    rw [if_pos hother, hitem, if_pos rfl]
  · intro hother
    rw [cleanToken_of_tokenize line tok htok]
    by_cases hne : tok ∈ neMap
    · constructor
      · intro _
        exact hne
      · intro _
        unfold annotateToken
        rw [if_neg (by simp [hother]), if_pos hne, hitem, if_pos rfl]
    · constructor
      · intro heq
        exact absurd heq (annotateToken_not_ne env cfg neMap tok hother hne hitem)
      · intro hmem
        exact absurd hmem hne

/-- Witness for C7 at the token `ab` of the line `ab cd` with the
named-entity set containing `ab`: the token is not OTHER and is labeled
NE. -/
theorem classifier_other_before_ne_witness :
    ("ab".data ∈ tokenize "ab cd".data) ∧ testCfg.FEATURE_LANGUAGE_PER_ITEM = true ∧
    ((isOtherToken "ab".data = true →
      annotateToken envSelfie testCfg ["ab".data] "ab".data
        = ([row "ab".data "OTHER"], [])) ∧
    (isOtherToken "ab".data = false →
      (annotateToken envSelfie testCfg ["ab".data] "ab".data
          = ([row "ab".data "NE"], ["NE"]) ↔
        cleanToken "ab".data ∈ ["ab".data])) ∧
    (isOtherToken [] = true ∧
      annotateToken envSelfie testCfg ["ab".data] [] = ([row [] "OTHER"], []))) :=
  ⟨by decide, rfl, classifier_other_before_ne envSelfie testCfg ["ab".data]
    "ab cd".data "ab".data (by decide) rfl⟩

/-! The pipeline orchestrator `annotate` (source lines 289-400). -/

/-- Python `text.splitlines()`, scoped to the newline character (a trailing
newline does not produce a final empty line). -/
def splitLinesGo : Nat → Str → List Str
  | 0, _ => []
  | _, [] => []
  | fuel + 1, c :: cs =>
    let line := (c :: cs).takeWhile (fun x => x ≠ '\n')
    match (c :: cs).dropWhile (fun x => x ≠ '\n') with
    | [] => [line]
    | _ :: rest2 => line :: splitLinesGo fuel rest2

/-- Python `text.splitlines()` on a whole text. -/
def pySplitLines (text : Str) : List Str := splitLinesGo text.length text

/-- Python `not line.strip()`: the line is empty or all whitespace.  (After
`splitlines` the source's `raw.rstrip("\n")` is the identity, so it is not
modelled separately.) -/
def isBlankLine (line : Str) : Bool := line.all Char.isWhitespace

/-- Per-line annotation body of `annotate` for a non-blank line (source
lines 304-398): the optional sentence-id row, the per-token rows, the
Matrix/Embed rows under their feature toggles, and the sentence-terminating
blank row.  The source's token loop appends to `sent_rows` and
`labels_in_sent`; each iteration depends only on its own token, so the loop
is rendered as map-and-flatten of `annotateToken`. -/
def annotateLine (env : Env) (cfg : Config) (sentIdx : Nat) (line : Str) : List Str :=
  let sidRows := if cfg.FEATURE_SENTENCE_ID then [row "SentenceID".data (toString sentIdx)]
    else []
  let tokens := tokenize line
  let neMap := if cfg.NER_ENABLED then buildNeMap (env.ner_ents line) tokens else []
  let results := tokens.map (annotateToken env cfg neMap)
  let sentRows := (results.map Prod.fst).flatten
  let labels := (results.map Prod.snd).flatten
  let me := decideMatrixEmbed labels cfg
  let meRows :=
    if cfg.FEATURE_MATRIX_LANGUAGE then
      row "MatrixLang".data me.1 ::
        (if cfg.FEATURE_EMBEDDED_LANGUAGE then [row "EmbedLang".data me.2] else [])
    else if cfg.FEATURE_EMBEDDED_LANGUAGE then [row "EmbedLang".data me.2] else []
  sidRows ++ sentRows ++ meRows ++ [[]]

/-- Line loop of `annotate` (source lines 298-398): a blank line emits one
blank output row and does not increment the sentence counter; a non-blank
line increments it and emits its sentence block. -/
def annotateLines (env : Env) (cfg : Config) : Nat → List Str → List Str
  | _, [] => []
  | sentIdx, line :: rest =>
    if isBlankLine line then [] :: annotateLines env cfg sentIdx rest
    else annotateLine env cfg (sentIdx + 1) line ++ annotateLines env cfg (sentIdx + 1) rest

/-- Method `annotate` (source lines 289-400), applied to the merged
configuration (`DEFAULTS` updated with `user_cfg`): walks the lines and
returns `"\n".join(out_lines)`.  The lazy NER initialisation
(`_ensure_ner`) only loads the external model and does not affect the
output. -/
def annotate (env : Env) (text : Str) (cfg : Config) : Str :=
  List.intercalate ['\n'] (annotateLines env cfg 0 (pySplitLines text))

/-! Congruence through `annotate`: the output depends on the configuration
only through the fields the pipeline actually reads. -/

theorem detectScan_congr (env : Env) (cfg' cfg : Config)
    (hEN : cfg'.FT_EN_MIN = cfg.FT_EN_MIN) (hST : cfg'.MIXED_STRICT = cfg.MIXED_STRICT)
    (tok tok_l : Str) :
    ∀ sufs : List Str, detectScan env cfg' tok tok_l sufs = detectScan env cfg tok tok_l sufs := by
  intro sufs
  induction sufs with
  | nil => rfl
  | cons suf rest ih =>
    unfold detectScan
    rw [hEN, hST, ih]

theorem detectMixedNoApostrophe_congr (env : Env) (cfg' cfg : Config)
    (hEN : cfg'.FT_EN_MIN = cfg.FT_EN_MIN) (hST : cfg'.MIXED_STRICT = cfg.MIXED_STRICT)
    (token : Str) :
    detectMixedNoApostrophe env cfg' token = detectMixedNoApostrophe env cfg token := by
  unfold detectMixedNoApostrophe
  dsimp only
  rw [detectScan_congr env cfg' cfg hEN hST]

theorem chooseLabel_congr (env : Env) (cfg' cfg : Config)
    (hEN : cfg'.FT_EN_MIN = cfg.FT_EN_MIN) (hTR : cfg'.FT_TR_MIN = cfg.FT_TR_MIN)
    (t : Str) :
    chooseLabel env t cfg' = chooseLabel env t cfg := by
  unfold chooseLabel
  rw [hEN, hTR]

theorem annotateToken_congr (env : Env) (cfg' cfg : Config)
    (hitem : cfg'.FEATURE_LANGUAGE_PER_ITEM = cfg.FEATURE_LANGUAGE_PER_ITEM)
    (hEN : cfg'.FT_EN_MIN = cfg.FT_EN_MIN) (hTR : cfg'.FT_TR_MIN = cfg.FT_TR_MIN)
    (hST : cfg'.MIXED_STRICT = cfg.MIXED_STRICT) (neMap : List Str) (tok : Str) :
    annotateToken env cfg' neMap tok = annotateToken env cfg neMap tok := by
  unfold annotateToken
  simp only [hitem, chooseLabel_congr env cfg' cfg hEN hTR,
    detectMixedNoApostrophe_congr env cfg' cfg hEN hST]

theorem decideMatrixEmbed_congr (cfg' cfg : Config)
    (hTW : cfg'.MIXED_TR_WEIGHT = cfg.MIXED_TR_WEIGHT)
    (hEW : cfg'.MIXED_EN_WEIGHT = cfg.MIXED_EN_WEIGHT) (labels : List String) :
    decideMatrixEmbed labels cfg' = decideMatrixEmbed labels cfg := by
  unfold decideMatrixEmbed
  rw [hTW, hEW]

theorem annotateLine_congr (env : Env) (cfg' cfg : Config)
    (hitem : cfg'.FEATURE_LANGUAGE_PER_ITEM = cfg.FEATURE_LANGUAGE_PER_ITEM)
    (hmat : cfg'.FEATURE_MATRIX_LANGUAGE = cfg.FEATURE_MATRIX_LANGUAGE)
    (hemb : cfg'.FEATURE_EMBEDDED_LANGUAGE = cfg.FEATURE_EMBEDDED_LANGUAGE)
    (hsid : cfg'.FEATURE_SENTENCE_ID = cfg.FEATURE_SENTENCE_ID)
    (hner : cfg'.NER_ENABLED = cfg.NER_ENABLED)
    (hEN : cfg'.FT_EN_MIN = cfg.FT_EN_MIN) (hTR : cfg'.FT_TR_MIN = cfg.FT_TR_MIN)
    (hST : cfg'.MIXED_STRICT = cfg.MIXED_STRICT)
    (hTW : cfg'.MIXED_TR_WEIGHT = cfg.MIXED_TR_WEIGHT)
    (hEW : cfg'.MIXED_EN_WEIGHT = cfg.MIXED_EN_WEIGHT)
    (sentIdx : Nat) (line : Str) :
    annotateLine env cfg' sentIdx line = annotateLine env cfg sentIdx line := by
  unfold annotateLine
  have htok : annotateToken env cfg'
      (if cfg.NER_ENABLED then buildNeMap (env.ner_ents line) (tokenize line) else []) =
      annotateToken env cfg
      (if cfg.NER_ENABLED then buildNeMap (env.ner_ents line) (tokenize line) else []) :=
    funext (annotateToken_congr env cfg' cfg hitem hEN hTR hST _)
  simp only [hsid, hner, hmat, hemb, htok,
    decideMatrixEmbed_congr cfg' cfg hTW hEW]

theorem annotateLines_congr (env : Env) (cfg' cfg : Config)
    (hitem : cfg'.FEATURE_LANGUAGE_PER_ITEM = cfg.FEATURE_LANGUAGE_PER_ITEM)
    (hmat : cfg'.FEATURE_MATRIX_LANGUAGE = cfg.FEATURE_MATRIX_LANGUAGE)
    (hemb : cfg'.FEATURE_EMBEDDED_LANGUAGE = cfg.FEATURE_EMBEDDED_LANGUAGE)
    (hsid : cfg'.FEATURE_SENTENCE_ID = cfg.FEATURE_SENTENCE_ID)
    (hner : cfg'.NER_ENABLED = cfg.NER_ENABLED)
    (hEN : cfg'.FT_EN_MIN = cfg.FT_EN_MIN) (hTR : cfg'.FT_TR_MIN = cfg.FT_TR_MIN)
    (hST : cfg'.MIXED_STRICT = cfg.MIXED_STRICT)
    (hTW : cfg'.MIXED_TR_WEIGHT = cfg.MIXED_TR_WEIGHT)
    (hEW : cfg'.MIXED_EN_WEIGHT = cfg.MIXED_EN_WEIGHT) (sentIdx : Nat) (lines : List Str) :
    annotateLines env cfg' sentIdx lines = annotateLines env cfg sentIdx lines := by
  induction lines generalizing sentIdx with
  | nil => rfl
  | cons line rest ih =>
    unfold annotateLines
    rw [annotateLine_congr env cfg' cfg hitem hmat hemb hsid hner hEN hTR hST hTW hEW,
      ih, ih]

/-- C10: `annotate` never reads `EMIT_MIXED_SUFFIX`, `EMBED_MIN_COUNT` or
`EMBED_MIN_RATIO` — two configurations that differ only in these three
recognized default-config keys produce identical output on every input text
and environment. -/
theorem annotate_ignores_unused_keys (env : Env) (text : Str) (cfg : Config)
    (e : Bool) (c : ℕ) (r : ℚ) :
    annotate env text
        { cfg with EMIT_MIXED_SUFFIX := e, EMBED_MIN_COUNT := c, EMBED_MIN_RATIO := r }
      = annotate env text cfg := by
  unfold annotate
  rw [annotateLines_congr env
    { cfg with EMIT_MIXED_SUFFIX := e, EMBED_MIN_COUNT := c, EMBED_MIN_RATIO := r }
    cfg rfl rfl rfl rfl rfl rfl rfl rfl rfl rfl]

end TREN
